import Mathlib

/-
Verification of the room/session/protocol layer of the Zereker/game server.

The Go source is embedded shallowly:
 - Go maps (playerID -> value) become association lists with unique keys
   (the map invariant); insertion replaces an existing key.
 - Mutating methods become state-passing functions returning
   (Except String Unit) x NewState; on the error paths the source returns
   before mutating, which the embedding mirrors by returning the input state.
 - External collaborators (the werewolf rules engine, the random shuffle,
   uuid generation) are parameters: the engine's fallible Start is an
   (Option String) failure argument, the shuffle result and fresh ids are
   ordinary arguments.
 - Network sends are returned as explicit lists of (recipient, payload).
-/

/-! ## Association lists standing for Go maps -/

def lookupA {α : Type} : List (String × α) → String → Option α
  | [], _ => none
  | (k', v) :: t, k => if k' = k then some v else lookupA t k

def insertA {α : Type} : List (String × α) → String → α → List (String × α)
  | [], k, v => [(k, v)]
  | (k', v') :: t, k, v => if k' = k then (k, v) :: t else (k', v') :: insertA t k v

def eraseA {α : Type} (l : List (String × α)) (k : String) : List (String × α) :=
  l.filter (fun e => e.1 ≠ k)

def keysA {α : Type} (l : List (String × α)) : List String :=
  l.map Prod.fst

/-! ## Domain data (src/unnamed/part_002, src/protocol/types.go) -/

inductive RoomState where
  | waiting
  | playing
  | finished
deriving DecidableEq, Repr

inductive RoleType where
  | werewolf
  | seer
  | witch
  | hunter
  | guard
  | villager
deriving DecidableEq, Repr

inductive Camp where
  | evil
  | good
deriving DecidableEq, Repr

structure Player where
  id : String
  username : String
  roomID : String
  isReady : Bool
deriving DecidableEq, Repr

/-- One participant as held by the external engine: role, camp, alive flag. -/
structure EnginePlayer where
  role : RoleType
  camp : Camp
  alive : Bool
deriving DecidableEq, Repr

/-- The external engine, reduced to the state the room layer observes. -/
structure Engine where
  players : List (String × EnginePlayer)
deriving DecidableEq, Repr

structure Room where
  id : String
  name : String
  players : List (String × Player)
  engine : Option Engine
  state : RoomState
  roles : List RoleType
deriving DecidableEq, Repr

structure PlayerInfo where
  id : String
  username : String
  isAlive : Bool
  isReady : Bool
  roleType : Option RoleType
deriving DecidableEq, Repr

structure GameStartedData where
  roleType : RoleType
  camp : Camp
  players : List PlayerInfo
deriving DecidableEq, Repr

structure PlayerLeftData where
  playerID : String
deriving DecidableEq, Repr

structure PlayerReadyData where
  playerID : String
  isReady : Bool
deriving DecidableEq, Repr

structure ActionResultData where
  success : Bool
  message : String
deriving DecidableEq, Repr

/-! ## Room operations (src/unnamed/part_002, second room.go) -/

def NewRoom (id name : String) (roles : List RoleType) : Room :=
  { id := id, name := name, players := [], engine := none,
    state := RoomState.waiting, roles := roles }

def Room.AddPlayer (r : Room) (p : Player) : Except String Unit × Room :=
  if r.state ≠ RoomState.waiting then
    (Except.error "room is not in waiting state", r)
  else if r.players.length ≥ r.roles.length then
    (Except.error "room is full", r)
  else
    (Except.ok (), { r with players := insertA r.players p.id { p with roomID := r.id } })

def Room.RemovePlayer (r : Room) (pid : String) : Room :=
  { r with players := eraseA r.players pid }

def Room.SetPlayerReady (r : Room) (pid : String) (isReady : Bool) : Except String Unit × Room :=
  match lookupA r.players pid with
  | none => (Except.error "player not in room", r)
  | some p => (Except.ok (), { r with players := insertA r.players pid { p with isReady := isReady } })

def Room.CanStart (r : Room) : Bool :=
  r.players.length == r.roles.length && r.players.all (fun e => e.2.isReady)

def getRoleCamp (role : RoleType) : Camp :=
  match role with
  | RoleType.werewolf => Camp.evil
  | _ => Camp.good

/-- Room.Start.  The shuffled role order and the engine's own Start outcome
are external (rand.Shuffle, werewolf.Engine.Start) and appear as arguments:
shuffled is the permuted copy of r.roles, startErr the engine failure, if any.
Note the source assigns r.Engine before Engine.Start can fail. -/
def Room.Start (r : Room) (shuffled : List RoleType) (startErr : Option String) :
    Except String Unit × Room :=
  if r.state ≠ RoomState.waiting then
    (Except.error "room is not in waiting state", r)
  else if r.players.length ≠ r.roles.length then
    (Except.error ("need " ++ toString r.roles.length ++ " players, got " ++
      toString r.players.length), r)
  else
    let engine : Engine :=
      { players := List.zipWith
          (fun (e : String × Player) (role : RoleType) =>
            (e.1, { role := role, camp := getRoleCamp role, alive := true }))
          r.players shuffled }
    let r1 := { r with engine := some engine }
    match startErr with
    | some e => (Except.error ("start engine: " ++ e), r1)
    | none => (Except.ok (), { r1 with state := RoomState.playing })

/-- Room.convertPlayersInfo: iterates the roster, skips ids unknown to the
engine state, includes the role only when includeRole is set (otherwise the
roleType field is omitted, modelled as none). -/
def Room.convertPlayersInfo (r : Room) (st : Engine) (includeRole : Bool) : List PlayerInfo :=
  r.players.filterMap (fun e =>
    (lookupA st.players e.1).map (fun ps =>
      { id := e.1, username := e.2.username, isAlive := ps.alive, isReady := e.2.isReady,
        roleType := if includeRole then some ps.role else none }))

/-- Room.notifyGameStarted: for each roster member found in the engine state,
one GAME_STARTED message with that member's own role and camp and the
role-stripped roster list. -/
def Room.notifyGameStarted (r : Room) (st : Engine) : List (String × GameStartedData) :=
  r.players.filterMap (fun e =>
    (lookupA st.players e.1).map (fun ps =>
      (e.1, { roleType := ps.role, camp := ps.camp,
              players := r.convertPlayersInfo st false })))

/-- Room.BroadcastMessage: one copy of the payload per roster member. -/
def Room.Broadcast {α : Type} (r : Room) (msg : α) : List (String × α) :=
  r.players.map (fun e => (e.1, msg))

/-- A sequence of AddPlayer calls: a failed call returns its error to the
caller and the room is left as it was. -/
def applyAdds (r : Room) : List Player → Room
  | [] => r
  | p :: ps => applyAdds (r.AddPlayer p).2 ps

/-! ## Message handler projections (src/unnamed/part_001, second handler.go)

The handler functions receive the values the source fetches from the server
registries (player, room) as Option arguments, keeping every error branch of
the source.  Engine queries and engine outcomes are arguments, since the
engine lives outside this repository. -/

structure SkillUse where
  playerID : String
  skill : Int
  targetID : String
deriving DecidableEq, Repr

/-- The dynamic PERFORM_ACTION payload after UnmarshalData: the skillType and
targetID fields may each be absent.  (A present-but-non-numeric skillType is
folded into the absent case; the source rejects both before reaching the
engine.) -/
structure PerformPayload where
  skillType : Option Int
  targetID : Option String
deriving DecidableEq, Repr

structure ActionOut where
  result : Except String Unit
  sent : List ActionResultData
  submitted : Option SkillUse
deriving Repr

/-- MessageHandler.handlePerformAction.  allowedSkills is the engine's
GetAllowedSkills reply for this player, submitResult the engine's
SubmitSkillUse outcome (consulted only if the handler submits). -/
def MessageHandler.handlePerformAction (player : Option Player) (room : Option Room)
    (payload : Option PerformPayload) (allowedSkills : List Int)
    (submitResult : Except String Unit) : ActionOut :=
  match payload with
  | none => { result := Except.error "unmarshal message data", sent := [], submitted := none }
  | some data =>
    match player with
    | none => { result := Except.error "player not found", sent := [], submitted := none }
    | some pl =>
      match room with
      | none => { result := Except.error "room not found", sent := [], submitted := none }
      | some rm =>
        if rm.engine = none then
          { result := Except.error "game not started", sent := [], submitted := none }
        else
          match data.skillType with
          | none => { result := Except.error "missing skillType field", sent := [], submitted := none }
          | some st =>
            let targetID := data.targetID.getD ""
            if !(allowedSkills.contains st) then
              { result := Except.error "skill not allowed in current phase",
                sent := [{ success := false, message := "当前阶段不允许使用该技能" }],
                submitted := none }
            else
              let su : SkillUse := { playerID := pl.id, skill := st, targetID := targetID }
              match submitResult with
              | Except.error e =>
                { result := Except.error e,
                  sent := [{ success := false, message := e }],
                  submitted := some su }
              | Except.ok _ =>
                { result := Except.ok (),
                  sent := [{ success := true, message := "技能提交成功" }],
                  submitted := some su }

structure ReadyOut where
  result : Except String Unit
  room : Room
  startCalled : Bool

/-- MessageHandler.handleReady, room-facing part: toggle the ready flag, then
invoke Start only when CanStart holds on the updated room; the benign
double-start race error is swallowed.  p is the registry entry for the acting
player (aliased in the source with the roster entry). -/
def MessageHandler.handleReadyRoom (p : Player) (r : Room) (shuffled : List RoleType)
    (startErr : Option String) : ReadyOut :=
  let newReadyState := !p.isReady
  match r.SetPlayerReady p.id newReadyState with
  | (Except.error e, r1) => { result := Except.error e, room := r1, startCalled := false }
  | (Except.ok _, r1) =>
    if r1.CanStart then
      match r1.Start shuffled startErr with
      | (Except.error e, r2) =>
        if e = "room is not in waiting state" then
          { result := Except.ok (), room := r2, startCalled := true }
        else
          { result := Except.error e, room := r2, startCalled := true }
      | (Except.ok _, r2) => { result := Except.ok (), room := r2, startCalled := true }
    else
      { result := Except.ok (), room := r1, startCalled := false }

/-! ## Server registry and connection callback (src/unnamed/part_002, server.go) -/

structure ServerState where
  rooms : List (String × Room)
  players : List (String × Player)

/-- Server.RemovePlayer: unknown ids are ignored; a member of a room is erased
from the roster first, then PLAYER_LEFT is broadcast to the remaining roster,
then the registry entry is deleted.  Returns the new state and the
(recipient, PLAYER_LEFT) sends. -/
def Server.RemovePlayer (s : ServerState) (pid : String) :
    ServerState × List (String × PlayerLeftData) :=
  match lookupA s.players pid with
  | none => (s, [])
  | some player =>
    if player.roomID ≠ "" then
      match lookupA s.rooms player.roomID with
      | some room =>
        let room1 := room.RemovePlayer pid
        let sent := room1.Broadcast ({ playerID := pid } : PlayerLeftData)
        ({ rooms := insertA s.rooms player.roomID room1,
           players := eraseA s.players pid }, sent)
      | none => ({ s with players := eraseA s.players pid }, [])
    else
      ({ s with players := eraseA s.players pid }, [])

inductive MsgType where
  | login
  | createRoom
  | joinRoom
  | ready
  | performAction
  | endPhase
  | loginSuccess
  | roomCreated
  | roomJoined
  | playerJoined
  | playerLeft
  | playerReady
  | gameStarted
  | phaseChanged
  | gameState
  | gameEvent
  | actionResult
  | gameEnded
  | errorMsg
  | roleInfo
  | allowedSkills
deriving DecidableEq, Repr

/-- An inbound message as the connection callback sees it: its kind plus the
LOGIN payload field (none models a payload UnmarshalData failure). -/
structure InboundMsg where
  type : MsgType
  loginUsername : Option String
deriving DecidableEq, Repr

inductive OutboundMsg where
  | loginSuccess (playerID : String)
  | errorReply (message : String)
deriving DecidableEq, Repr

structure OnMessageOut where
  newTempPlayerID : String
  registered : Option Player
  sentDirect : List OutboundMsg
  handlerCalled : Bool
  result : Except String Unit
deriving Repr

/-- The OnMessage callback installed by Server.HandleConnection.
tempPlayerID is empty until a login succeeds; freshID stands for the uuid the
source generates; handlerResult is the MessageHandler outcome for
already-authenticated traffic.  A non-ok result makes the socket layer drop
the connection; the pre-login error reply path returns ok. -/
def Server.onMessage (tempPlayerID : String) (msg : InboundMsg) (freshID : String)
    (handlerResult : Except String Unit) : OnMessageOut :=
  if msg.type = MsgType.login then
    match msg.loginUsername with
    | none =>
      { newTempPlayerID := tempPlayerID, registered := none, sentDirect := [],
        handlerCalled := false, result := Except.error "unmarshal message data" }
    | some username =>
      let player : Player := { id := freshID, username := username, roomID := "", isReady := false }
      { newTempPlayerID := player.id, registered := some player,
        sentDirect := [OutboundMsg.loginSuccess player.id],
        handlerCalled := false, result := Except.ok () }
  else if tempPlayerID = "" then
    { newTempPlayerID := tempPlayerID, registered := none,
      sentDirect := [OutboundMsg.errorReply "please login first"],
      handlerCalled := false, result := Except.ok () }
  else
    match handlerResult with
    | Except.error e =>
      { newTempPlayerID := tempPlayerID, registered := none,
        sentDirect := [OutboundMsg.errorReply e],
        handlerCalled := true, result := Except.ok () }
    | Except.ok _ =>
      { newTempPlayerID := tempPlayerID, registered := none, sentDirect := [],
        handlerCalled := true, result := Except.ok () }

/-! ## Wire codec (src/unnamed/part_003, protocol/message.go)

Bytes are Nats below 256; streams are byte lists.  The JSON layer of
encoding/json is modelled executably for the subset the protocol exercises:
objects, arrays, unescaped strings, nonnegative integers, true/false/null,
with insignificant whitespace.  Message.Data is json.RawMessage in the
source, so unmarshalling captures the raw bytes of the data value verbatim
and marshalling writes them back verbatim; the other two fields re-serialize
canonically (fixed field order, no whitespace), exactly as encoding/json
does for the Message struct. -/

def isWsByte (c : Nat) : Bool :=
  c == 32 || c == 9 || c == 10 || c == 13

def isDigitByte (c : Nat) : Bool :=
  48 ≤ c && c ≤ 57

def skipWs : List Nat → List Nat
  | [] => []
  | c :: rest => if isWsByte c then skipWs rest else c :: rest

/-- Split a leading run of whitespace off a stream. -/
def splitWs (input : List Nat) : List Nat × List Nat :=
  (input.takeWhile isWsByte, input.dropWhile isWsByte)

/-- Scan the body of a JSON string after the opening quote, up to the closing
quote.  Escape sequences are outside the modelled subset and fail. -/
def scanString : List Nat → Option (List Nat × List Nat)
  | [] => none
  | c :: rest =>
    if c == 34 then some ([], rest)
    else if c == 92 then none
    else
      match scanString rest with
      | some (s, r) => some (c :: s, r)
      | none => none

def parseStringLit : List Nat → Option (List Nat × List Nat)
  | 34 :: rest => scanString rest
  | _ => none

/-- Parse a nonnegative decimal integer (maximal digit run). -/
def parseNat (input : List Nat) : Option (Nat × List Nat) :=
  let ds := input.takeWhile isDigitByte
  let rest := input.dropWhile isDigitByte
  if ds.isEmpty then none
  else some (ds.foldl (fun a c => a * 10 + (c - 48)) 0, rest)

inductive RawMode where
  | value
  | members
  | elems

/-- Scan one JSON value (mode value), the members of an object up to and
including the closing brace (mode members), or the elements of an array up
to and including the closing bracket (mode elems), returning the consumed
bytes verbatim together with the rest of the stream.  Fuel only bounds the
nesting walk; each recursive call consumes at least one byte. -/
def parseRaw : Nat → RawMode → List Nat → Option (List Nat × List Nat)
  | 0, _, _ => none
  | fuel + 1, RawMode.value, input =>
    match input with
    | [] => none
    | c :: rest =>
      if c == 34 then
        match scanString rest with
        | some (s, r) => some (34 :: (s ++ [34]), r)
        | none => none
      else if c == 123 then
        let (ws, r1) := splitWs rest
        match r1 with
        | 125 :: r2 => some (123 :: (ws ++ [125]), r2)
        | _ =>
          match parseRaw fuel RawMode.members r1 with
          | some (mraw, r2) => some (123 :: (ws ++ mraw), r2)
          | none => none
      else if c == 91 then
        let (ws, r1) := splitWs rest
        match r1 with
        | 93 :: r2 => some (91 :: (ws ++ [93]), r2)
        | _ =>
          match parseRaw fuel RawMode.elems r1 with
          | some (eraw, r2) => some (91 :: (ws ++ eraw), r2)
          | none => none
      else if isDigitByte c || c == 45 then
        let ds := rest.takeWhile isDigitByte
        let r := rest.dropWhile isDigitByte
        if c == 45 && ds.isEmpty then none else some (c :: ds, r)
      else if c == 116 then
        match rest with
        | 114 :: 117 :: 101 :: r => some ([116, 114, 117, 101], r)
        | _ => none
      else if c == 102 then
        match rest with
        | 97 :: 108 :: 115 :: 101 :: r => some ([102, 97, 108, 115, 101], r)
        | _ => none
      else if c == 110 then
        match rest with
        | 117 :: 108 :: 108 :: r => some ([110, 117, 108, 108], r)
        | _ => none
      else none
  | fuel + 1, RawMode.members, input =>
    match parseStringLit input with
    | none => none
    | some (k, r1) =>
      let (ws1, r2) := splitWs r1
      match r2 with
      | 58 :: r3 =>
        let (ws2, r4) := splitWs r3
        match parseRaw fuel RawMode.value r4 with
        | none => none
        | some (vraw, r5) =>
          let (ws3, r6) := splitWs r5
          match r6 with
          | 44 :: r7 =>
            let (ws4, r8) := splitWs r7
            match parseRaw fuel RawMode.members r8 with
            | some (mraw, r9) =>
              some (34 :: (k ++ [34] ++ ws1 ++ [58] ++ ws2 ++ vraw ++ ws3 ++ [44] ++ ws4 ++ mraw), r9)
            | none => none
          | 125 :: r7 =>
            some (34 :: (k ++ [34] ++ ws1 ++ [58] ++ ws2 ++ vraw ++ ws3 ++ [125]), r7)
          | _ => none
      | _ => none
  | fuel + 1, RawMode.elems, input =>
    match parseRaw fuel RawMode.value input with
    | none => none
    | some (vraw, r1) =>
      let (ws1, r2) := splitWs r1
      match r2 with
      | 44 :: r3 =>
        let (ws2, r4) := splitWs r3
        match parseRaw fuel RawMode.elems r4 with
        | some (eraw, r5) => some (vraw ++ ws1 ++ [44] ++ ws2 ++ eraw, r5)
        | none => none
      | 93 :: r3 => some (vraw ++ ws1 ++ [93], r3)
      | _ => none

/-- The wire Message struct: a kind tag (string content bytes), the raw bytes
of the data value (json.RawMessage), and the timestamp.  The lazily computed
serialization cache of the source is a memoization of Body and carries no
further information, so it is not part of the state. -/
structure Message where
  type : List Nat
  data : List Nat
  timestamp : Nat
deriving DecidableEq, Repr

def keyTypeBytes : List Nat := [116, 121, 112, 101]
def keyDataBytes : List Nat := [100, 97, 116, 97]
def keyTimestampBytes : List Nat := [116, 105, 109, 101, 115, 116, 97, 109, 112]

/-- One pass over the members of the top-level object, filling the Message
struct by field name; unknown keys are skipped, later duplicates win, exactly
as encoding/json does. -/
def parseMembersMsg : Nat → List Nat → Message → Option (Message × List Nat)
  | 0, _, _ => none
  | fuel + 1, input, acc =>
    match parseStringLit (skipWs input) with
    | none => none
    | some (k, r1) =>
      match skipWs r1 with
      | 58 :: r2 =>
        let r3 := skipWs r2
        let step : Option (Message × List Nat) :=
          if k = keyTypeBytes then
            match parseStringLit r3 with
            | some (v, r4) => some ({ acc with type := v }, r4)
            | none => none
          else if k = keyTimestampBytes then
            match parseNat r3 with
            | some (n, r4) => some ({ acc with timestamp := n }, r4)
            | none => none
          else
            match parseRaw (r3.length + 1) RawMode.value r3 with
            | some (vraw, r4) =>
              some (if k = keyDataBytes then { acc with data := vraw } else acc, r4)
            | none => none
        match step with
        | none => none
        | some (acc2, r4) =>
          match skipWs r4 with
          | 44 :: r5 => parseMembersMsg fuel r5 acc2
          | 125 :: r5 => some (acc2, r5)
          | _ => none
      | _ => none

/-- json.Unmarshal into the Message struct: a single top-level object with
nothing but whitespace after it. -/
def unmarshalMessage (input : List Nat) : Option Message :=
  match skipWs input with
  | 123 :: rest =>
    match skipWs rest with
    | 125 :: r2 =>
      if (skipWs r2).isEmpty then some { type := [], data := [], timestamp := 0 } else none
    | r1 =>
      match parseMembersMsg (input.length + 1) r1 { type := [], data := [], timestamp := 0 } with
      | some (m, r2) => if (skipWs r2).isEmpty then some m else none
      | none => none
  | _ => none

/-- Big-endian decimal digits of a Nat, via a fueled little-endian helper. -/
def natDigitsAux : Nat → Nat → List Nat
  | 0, _ => []
  | _ + 1, 0 => []
  | fuel + 1, n + 1 => ((n + 1) % 10 + 48) :: natDigitsAux fuel ((n + 1) / 10)

def natDigits (n : Nat) : List Nat :=
  if n = 0 then [48] else (natDigitsAux n n).reverse

/-- json.Marshal of the Message struct: fields in declaration order, the data
value written verbatim from its raw bytes. -/
def marshalMessage (m : Message) : List Nat :=
  [123, 34] ++ (keyTypeBytes ++ ([34, 58, 34] ++ (m.type ++ ([34, 44, 34] ++
    (keyDataBytes ++ ([34, 58] ++ (m.data ++ ([44, 34] ++ (keyTimestampBytes ++
    ([34, 58] ++ (natDigits m.timestamp ++ [125])))))))))))

/-- Message.Body: the serialization the cache memoizes. -/
def Message.Body (m : Message) : List Nat :=
  marshalMessage m

def writeU32 (n : Nat) : List Nat :=
  [n / 16777216 % 256, n / 65536 % 256, n / 256 % 256, n % 256]

/-- Codec.Encode: 4-byte big-endian length prefix (uint32, hence mod 2^32)
followed by the body. -/
def Codec.Encode (m : Message) : List Nat :=
  let body := m.Body
  writeU32 (body.length % 4294967296) ++ body

/-- Codec.Decode: read the 4-byte prefix, reject lengths over 1 MiB before
touching the body, read exactly that many body bytes, unmarshal.  Returns
the outcome together with the unconsumed remainder of the stream. -/
def Codec.Decode (input : List Nat) : Except String Message × List Nat :=
  match input with
  | b0 :: b1 :: b2 :: b3 :: rest =>
    let length := ((b0 * 256 + b1) * 256 + b2) * 256 + b3
    if length > 1048576 then (Except.error "message too large", rest)
    else if rest.length < length then (Except.error "read message body", [])
    else
      match unmarshalMessage (rest.take length) with
      | some m => (Except.ok m, rest.drop length)
      | none => (Except.error "decode message", rest.drop length)
  | _ => (Except.error "read message length", [])

/-- A type or key string within the modelled JSON subset: no quote, no
backslash. -/
def StrOk (s : List Nat) : Prop :=
  ∀ c ∈ s, c ≠ 34 ∧ c ≠ 92

/-- Raw bytes forming exactly one self-delimiting JSON value, starting at its
first byte (no leading whitespace, as json.RawMessage holds it): the scanner
consumes them and nothing more, whatever follows. -/
def DataOk (raw : List Nat) : Prop :=
  raw ≠ [] ∧ (∀ c, raw.head? = some c → isWsByte c = false) ∧
  ∀ fuel suffix, raw.length < fuel →
    parseRaw fuel RawMode.value (raw ++ suffix) = some (raw, suffix)

/-! ## Association list lemmas -/

theorem insertA_length_le {α : Type} (l : List (String × α)) (k : String) (v : α) :
    (insertA l k v).length ≤ l.length + 1 := by
  induction l with
  | nil => simp [insertA]
  | cons e t ih =>
    obtain ⟨k', v'⟩ := e
    simp only [insertA]
    split
    · simp
    · simpa using Nat.succ_le_succ ih

theorem lookupA_insertA_self {α : Type} (l : List (String × α)) (k : String) (v : α) :
    lookupA (insertA l k v) k = some v := by
  induction l with
  | nil => simp [insertA, lookupA]
  | cons e t ih =>
    obtain ⟨k', v'⟩ := e
    by_cases h : k' = k
    · simp [insertA, h, lookupA]
    · simp [insertA, h, lookupA, ih]

theorem lookupA_eraseA_self {α : Type} (l : List (String × α)) (k : String) :
    lookupA (eraseA l k) k = none := by
  induction l with
  | nil => simp [eraseA, lookupA]
  | cons e t ih =>
    obtain ⟨k', v'⟩ := e
    by_cases h : k' = k
    · simpa [eraseA, h] using ih
    · simpa [eraseA, h, lookupA] using ih

theorem eraseA_length_of_mem {α : Type} (l : List (String × α)) (k : String)
    (hnd : (keysA l).Nodup) (hmem : k ∈ keysA l) :
    (eraseA l k).length + 1 = l.length := by
  induction l with
  | nil => simp [keysA] at hmem
  | cons e t ih =>
    obtain ⟨k', v'⟩ := e
    simp only [keysA, List.map_cons, List.nodup_cons] at hnd
    by_cases h : k' = k
    · subst h
      have : eraseA ((k', v') :: t) k' = eraseA t k' := by simp [eraseA]
      rw [this]
      have herase : eraseA t k' = t := by
        apply List.filter_eq_self.mpr
        intro e he
        have : e.1 ∈ keysA t := List.mem_map_of_mem Prod.fst he
        simp only [decide_eq_true_eq]
        intro hk
        exact hnd.1 (by rwa [hk] at this)
      rw [herase]
      simp
    · have hmem' : k ∈ keysA t := by
        simp only [keysA, List.map_cons, List.mem_cons] at hmem
        rcases hmem with h1 | h1
        · exact absurd h1.symm h
        · exact h1
      have : eraseA ((k', v') :: t) k = (k', v') :: eraseA t k := by simp [eraseA, h]
      rw [this]
      simpa using ih hnd.2 hmem'

theorem keysA_eraseA_not_mem {α : Type} (l : List (String × α)) (k : String) :
    k ∉ keysA (eraseA l k) := by
  induction l with
  | nil => simp [eraseA, keysA]
  | cons e t ih =>
    obtain ⟨k', v'⟩ := e
    by_cases h : k' = k
    · simp only [eraseA, keysA] at ih ⊢
      rw [List.filter_cons]
      simp only [h, ne_eq, not_true_eq_false, decide_False]
      exact ih
    · simp only [eraseA, keysA] at ih ⊢
      have hfe : List.filter (fun e => decide (e.1 ≠ k)) ((k', v') :: t) =
          (k', v') :: List.filter (fun e => decide (e.1 ≠ k)) t := by
        simp [List.filter_cons, h]
      rw [hfe]
      simp only [List.map_cons, List.mem_cons]
      rintro (h1 | h1)
      · exact h h1.symm
      · exact ih h1

/-! ## Room lemmas -/

theorem addPlayer_state_roles (r : Room) (p : Player) :
    (r.AddPlayer p).2.state = r.state ∧ (r.AddPlayer p).2.roles = r.roles := by
  unfold Room.AddPlayer
  split
  · exact ⟨rfl, rfl⟩
  · split
    · exact ⟨rfl, rfl⟩
    · exact ⟨rfl, rfl⟩

theorem addPlayer_length_le (r : Room) (p : Player)
    (h : r.players.length ≤ r.roles.length) :
    (r.AddPlayer p).2.players.length ≤ r.roles.length := by
  unfold Room.AddPlayer
  split
  · exact h
  · split
    · exact h
    · rename_i hfull
      have hlt : r.players.length < r.roles.length := by omega
      have := insertA_length_le r.players p.id { p with roomID := r.id }
      simp only []
      omega

theorem applyAdds_state_roles (ps : List Player) (r : Room) :
    (applyAdds r ps).state = r.state ∧ (applyAdds r ps).roles = r.roles := by
  induction ps generalizing r with
  | nil => exact ⟨rfl, rfl⟩
  | cons p ps ih =>
    simp only [applyAdds]
    have h1 := addPlayer_state_roles r p
    have h2 := ih (r.AddPlayer p).2
    exact ⟨h1.1 ▸ h2.1, h1.2 ▸ h2.2⟩

theorem applyAdds_length_le (ps : List Player) (r : Room)
    (h : r.players.length ≤ r.roles.length) :
    (applyAdds r ps).players.length ≤ (applyAdds r ps).roles.length := by
  induction ps generalizing r with
  | nil => exact h
  | cons p ps ih =>
    simp only [applyAdds]
    apply ih
    have := addPlayer_length_le r p h
    rw [(addPlayer_state_roles r p).2]
    exact this

/-- C1: starting from a fresh room, a sequence of AddPlayer calls never takes
the roster size above the number of role slots, and an AddPlayer call made at
capacity fails with the room-is-full error and leaves the room (hence the
roster) exactly as it was. -/
theorem C1_roster_capacity (id name : String) (roles : List RoleType) (ps : List Player) :
    (applyAdds (NewRoom id name roles) ps).players.length ≤ roles.length ∧
    (∀ p, (applyAdds (NewRoom id name roles) ps).players.length = roles.length →
      (applyAdds (NewRoom id name roles) ps).AddPlayer p =
        (Except.error "room is full", applyAdds (NewRoom id name roles) ps)) := by
  have hroles := (applyAdds_state_roles ps (NewRoom id name roles)).2
  have hstate := (applyAdds_state_roles ps (NewRoom id name roles)).1
  have hlen := applyAdds_length_le ps (NewRoom id name roles) (by simp [NewRoom])
  constructor
  · rw [hroles] at hlen
    exact hlen
  · intro p hcap
    have hcap' : (applyAdds (NewRoom id name roles) ps).players.length ≥
        (applyAdds (NewRoom id name roles) ps).roles.length := by
      rw [hroles]
      show (applyAdds (NewRoom id name roles) ps).players.length ≥ roles.length
      omega
    have hst : ¬ ((applyAdds (NewRoom id name roles) ps).state ≠ RoomState.waiting) := by
      rw [hstate]
      simp [NewRoom]
    unfold Room.AddPlayer
    rw [if_neg hst, if_pos hcap']

theorem C1_roster_capacity_witness :
    (applyAdds (NewRoom "r1" "lobby" [RoleType.villager])
        [{ id := "p1", username := "alice", roomID := "", isReady := false }]).AddPlayer
        { id := "p2", username := "bob", roomID := "", isReady := false } =
      (Except.error "room is full",
        applyAdds (NewRoom "r1" "lobby" [RoleType.villager])
          [{ id := "p1", username := "alice", roomID := "", isReady := false }]) :=
  (C1_roster_capacity "r1" "lobby" [RoleType.villager]
      [{ id := "p1", username := "alice", roomID := "", isReady := false }]).2
    { id := "p2", username := "bob", roomID := "", isReady := false } (by decide)

/-- A one-seat waiting room holding one ready player, used as concrete input. -/
def roomOneReady : Room :=
  { id := "r1", name := "w",
    players := [("p1", { id := "p1", username := "alice", roomID := "r1", isReady := true })],
    engine := none, state := RoomState.waiting, roles := [RoleType.villager] }

/-- A one-seat room already in the Playing state. -/
def roomOnePlaying : Room :=
  { id := "r1", name := "w",
    players := [("p1", { id := "p1", username := "alice", roomID := "r1", isReady := false })],
    engine := none, state := RoomState.playing, roles := [RoleType.villager] }

/-- A one-seat waiting room holding one player who is not ready. -/
def roomOneWaitingNotReady : Room :=
  { id := "r1", name := "w",
    players := [("p1", { id := "p1", username := "alice", roomID := "r1", isReady := false })],
    engine := none, state := RoomState.waiting, roles := [RoleType.villager] }

/-- C5 counterexample: Start can return an error while having changed the
room: with the engine's own start failing, the error is returned after the
new engine handle was already assigned, so the post-call room differs from
the pre-call room. -/
theorem C5_error_changes_room_cex :
    (roomOneReady.Start [RoleType.villager] (some "boom")).1 =
        Except.error "start engine: boom" ∧
      (roomOneReady.Start [RoleType.villager] (some "boom")).2 ≠ roomOneReady := by
  exact ⟨rfl, by decide⟩

/-- C5 amended: a failed AddPlayer or SetPlayerReady leaves the room exactly
as it was; a failed Start leaves the state tag, the roster and hence every
ready flag unchanged, and leaves the whole room unchanged whenever the
failure is one of Start's own guards (when the external engine start is not
the failing step). -/
theorem C5_error_state_preserved (r : Room) :
    (∀ p e, (r.AddPlayer p).1 = Except.error e → (r.AddPlayer p).2 = r) ∧
    (∀ pid b e, (r.SetPlayerReady pid b).1 = Except.error e → (r.SetPlayerReady pid b).2 = r) ∧
    (∀ sh se e, (r.Start sh se).1 = Except.error e →
      (r.Start sh se).2.state = r.state ∧ (r.Start sh se).2.players = r.players ∧
        (se = none → (r.Start sh se).2 = r)) := by
  refine ⟨?_, ?_, ?_⟩
  · intro p e h
    unfold Room.AddPlayer at h ⊢
    split
    · rfl
    · split
      · rfl
      · rename_i h1 h2
        rw [if_neg h1, if_neg h2] at h
        simp at h
  · intro pid b e h
    unfold Room.SetPlayerReady at h ⊢
    split
    · rfl
    · rename_i p heq
      rw [heq] at h
      simp at h
  · intro sh se e h
    unfold Room.Start at h ⊢
    split
    · exact ⟨rfl, rfl, fun _ => rfl⟩
    · split
      · exact ⟨rfl, rfl, fun _ => rfl⟩
      · rename_i h1 h2
        cases se with
        | none =>
          rw [if_neg h1, if_neg h2] at h
          simp at h
        | some msg =>
          exact ⟨rfl, rfl, fun hc => by cases hc⟩

theorem C5_error_state_preserved_witness :
    ((NewRoom "a" "b" []).AddPlayer
        { id := "p1", username := "u", roomID := "", isReady := false }).2 =
      NewRoom "a" "b" [] ∧
    ((roomOneReady.Start [RoleType.villager] (some "boom")).2.state = roomOneReady.state ∧
      (roomOneReady.Start [RoleType.villager] (some "boom")).2.players = roomOneReady.players ∧
      (some "boom" = none → (roomOneReady.Start [RoleType.villager] (some "boom")).2 = roomOneReady)) :=
  ⟨(C5_error_state_preserved (NewRoom "a" "b" [])).1
      { id := "p1", username := "u", roomID := "", isReady := false } "room is full" rfl,
    (C5_error_state_preserved roomOneReady).2.2 [RoleType.villager] (some "boom")
      "start engine: boom" rfl⟩

/-- C2 counterexample: Room.Start does not require readiness.  A waiting
one-seat room whose only player is not ready has CanStart false, yet Start
succeeds and moves the room to Playing, refuting that a successful Start
requires the roster to be full of ready players. -/
theorem C2_start_without_ready_cex :
    roomOneWaitingNotReady.CanStart = false ∧
      (roomOneWaitingNotReady.Start [RoleType.villager] none).1 = Except.ok () ∧
      (roomOneWaitingNotReady.Start [RoleType.villager] none).2.state = RoomState.playing := by
  exact ⟨rfl, rfl, rfl⟩

/-- C2 amended: Start on a non-Waiting room fails with the not-waiting error
and changes nothing (so the Waiting-to-Playing transition happens at most
once); a successful Start requires exactly that the room was Waiting and the
roster size equals the role-slot count (readiness is not checked by Start
itself) and yields a Playing room; CanStart holds precisely when the roster
is full and every member is ready; and the ready handler only invokes Start
when CanStart holds on the just-updated room. -/
theorem C2_start_transition :
    (∀ (r : Room) (sh : List RoleType) (se : Option String), r.state ≠ RoomState.waiting →
      r.Start sh se = (Except.error "room is not in waiting state", r)) ∧
    (∀ (r : Room) (sh : List RoleType) (se : Option String), (r.Start sh se).1 = Except.ok () →
      r.state = RoomState.waiting ∧ r.players.length = r.roles.length ∧
        (r.Start sh se).2.state = RoomState.playing) ∧
    (∀ r : Room, r.CanStart = true ↔
      (r.players.length = r.roles.length ∧ ∀ e ∈ r.players, e.2.isReady = true)) ∧
    (∀ (p : Player) (r : Room) (sh : List RoleType) (se : Option String),
      (MessageHandler.handleReadyRoom p r sh se).startCalled = true →
        ((r.SetPlayerReady p.id (!p.isReady)).2).CanStart = true) := by
  refine ⟨?_, ?_, ?_, ?_⟩
  · intro r sh se hne
    unfold Room.Start
    rw [if_pos hne]
  · intro r sh se h
    unfold Room.Start at h ⊢
    split at h
    · simp at h
    · split at h
      · simp at h
      · rename_i h1 h2
        refine ⟨by simpa using h1, by simpa using h2, ?_⟩
        rw [if_neg h1, if_neg h2]
        cases se with
        | none => rfl
        | some msg => simp at h
  · intro r
    unfold Room.CanStart
    rw [Bool.and_eq_true, beq_iff_eq, List.all_eq_true]
  · intro p r sh se h
    unfold MessageHandler.handleReadyRoom at h
    simp only at h
    rcases heq : r.SetPlayerReady p.id (!p.isReady) with ⟨res, r1⟩
    rw [heq] at h
    cases res with
    | error e => simp at h
    | ok u =>
      cases u
      by_cases hcs : r1.CanStart
      · exact hcs
      · simp [hcs] at h

theorem C2_start_transition_witness :
    roomOnePlaying.Start [] none = (Except.error "room is not in waiting state", roomOnePlaying) ∧
      roomOneReady.CanStart = true :=
  ⟨C2_start_transition.1 roomOnePlaying [] none (by decide),
    (C2_start_transition.2.2.1 roomOneReady).mpr (by decide)⟩

/-- C10: SetPlayerReady fails exactly when the player is not a roster member,
and for a member it succeeds and stores the requested flag, with no condition
on the room state whatsoever. -/
theorem C10_set_ready_membership (r : Room) (pid : String) (b : Bool) :
    ((∃ e, (r.SetPlayerReady pid b).1 = Except.error e) ↔ lookupA r.players pid = none) ∧
    (∀ p, lookupA r.players pid = some p →
      r.SetPlayerReady pid b =
        (Except.ok (), { r with players := insertA r.players pid { p with isReady := b } })) := by
  constructor
  · constructor
    · rintro ⟨e, he⟩
      unfold Room.SetPlayerReady at he
      cases hl : lookupA r.players pid with
      | none => rfl
      | some p =>
        rw [hl] at he
        simp at he
    · intro hl
      refine ⟨"player not in room", ?_⟩
      unfold Room.SetPlayerReady
      rw [hl]
  · intro p hl
    unfold Room.SetPlayerReady
    rw [hl]

theorem C10_set_ready_membership_witness :
    roomOnePlaying.SetPlayerReady "p1" true =
      (Except.ok (), { roomOnePlaying with
        players := [("p1", { id := "p1", username := "alice", roomID := "r1", isReady := true })] }) :=
  (C10_set_ready_membership roomOnePlaying "p1" true).2
    { id := "p1", username := "alice", roomID := "r1", isReady := false } rfl

/-- C3: when the submitted skill is not in the engine's allowed-skills reply
for the submitter, the handler sends exactly one ACTION_RESULT with success
false to that player and never submits to the engine; and whenever the
handler does submit, the submitted skill was in the allowed-skills reply. -/
theorem C3_action_prechecked (pl : Player) (rm : Room) (d : PerformPayload)
    (st : Int) (allowedSkills : List Int) (submitResult : Except String Unit)
    (hengine : rm.engine ≠ none) (hskill : d.skillType = some st)
    (hnot : st ∉ allowedSkills) :
    MessageHandler.handlePerformAction (some pl) (some rm) (some d) allowedSkills submitResult =
      { result := Except.error "skill not allowed in current phase",
        sent := [{ success := false, message := "当前阶段不允许使用该技能" }],
        submitted := none } ∧
    (∀ (player : Option Player) (room : Option Room) (payload : Option PerformPayload)
        (su : SkillUse),
      (MessageHandler.handlePerformAction player room payload allowedSkills
          submitResult).submitted = some su →
        su.skill ∈ allowedSkills) := by
  constructor
  · unfold MessageHandler.handlePerformAction
    simp [hskill, hengine, hnot]
  · intro player room payload su h
    unfold MessageHandler.handlePerformAction at h
    cases payload with
    | none => simp at h
    | some data =>
      cases player with
      | none => simp at h
      | some pl2 =>
        cases room with
        | none => simp at h
        | some rm2 =>
          by_cases he : rm2.engine = none
          · simp [he] at h
          · cases hst : data.skillType with
            | none => simp [he, hst] at h
            | some st2 =>
              by_cases hmem : st2 ∈ allowedSkills
              · cases submitResult with
                | error e =>
                  simp [he, hst, hmem] at h
                  subst h
                  exact hmem
                | ok u =>
                  simp [he, hst, hmem] at h
                  subst h
                  exact hmem
              · simp [he, hst, hmem] at h

/-- A playing room whose engine handle is present. -/
def roomWithEngine : Room :=
  { id := "r1", name := "w",
    players := [("p1", { id := "p1", username := "alice", roomID := "r1", isReady := true })],
    engine := some { players := [("p1", { role := RoleType.villager, camp := Camp.good, alive := true })] },
    state := RoomState.playing, roles := [RoleType.villager] }

theorem C3_action_prechecked_witness :
    MessageHandler.handlePerformAction
        (some { id := "p1", username := "alice", roomID := "r1", isReady := true })
        (some roomWithEngine)
        (some { skillType := some 7, targetID := some "p2" }) [1, 2] (Except.ok ()) =
      { result := Except.error "skill not allowed in current phase",
        sent := [{ success := false, message := "当前阶段不允许使用该技能" }],
        submitted := none } :=
  (C3_action_prechecked { id := "p1", username := "alice", roomID := "r1", isReady := true }
      roomWithEngine { skillType := some 7, targetID := some "p2" } 7 [1, 2] (Except.ok ())
      (by decide) rfl (by decide)).1

/-- C8: with no login yet on the connection, any inbound message that is not
LOGIN produces exactly one please-login-first error reply, invokes no
handler, registers nothing, and leaves the connection open (the callback
returns without error). -/
theorem C8_preauth_rejected (msg : InboundMsg) (freshID : String)
    (handlerResult : Except String Unit) (hne : msg.type ≠ MsgType.login) :
    Server.onMessage "" msg freshID handlerResult =
      { newTempPlayerID := "", registered := none,
        sentDirect := [OutboundMsg.errorReply "please login first"],
        handlerCalled := false, result := Except.ok () } := by
  unfold Server.onMessage
  rw [if_neg hne, if_pos rfl]

theorem C8_preauth_rejected_witness :
    Server.onMessage "" { type := MsgType.ready, loginUsername := none } "id9" (Except.ok ()) =
      { newTempPlayerID := "", registered := none,
        sentDirect := [OutboundMsg.errorReply "please login first"],
        handlerCalled := false, result := Except.ok () } :=
  C8_preauth_rejected { type := MsgType.ready, loginUsername := none } "id9"
    (Except.ok ()) (by decide)

theorem keysA_eraseA_nodup {α : Type} (l : List (String × α)) (k : String)
    (hnd : (keysA l).Nodup) : (keysA (eraseA l k)).Nodup := by
  apply List.Nodup.sublist _ hnd
  exact List.Sublist.map Prod.fst (List.filter_sublist l)

/-- C9: removing a logged-in player who is a member of an existing room
erases them from that room roster (the roster shrinks by exactly one and no
longer contains them), broadcasts exactly one PLAYER_LEFT carrying their id
to each remaining roster member, and deletes them from the player registry. -/
theorem C9_disconnect_cleanup (s : ServerState) (pid : String) (player : Player) (room : Room)
    (hp : lookupA s.players pid = some player)
    (hrid : player.roomID ≠ "")
    (hr : lookupA s.rooms player.roomID = some room)
    (hnd : (keysA room.players).Nodup)
    (hmem : pid ∈ keysA room.players) :
    lookupA (Server.RemovePlayer s pid).1.rooms player.roomID = some (room.RemovePlayer pid) ∧
    (room.RemovePlayer pid).players.length + 1 = room.players.length ∧
    pid ∉ keysA (room.RemovePlayer pid).players ∧
    (Server.RemovePlayer s pid).2 =
      (room.RemovePlayer pid).players.map
        (fun e => (e.1, ({ playerID := pid } : PlayerLeftData))) ∧
    (∀ q ∈ keysA (room.RemovePlayer pid).players,
      ((Server.RemovePlayer s pid).2.map Prod.fst).count q = 1) ∧
    lookupA (Server.RemovePlayer s pid).1.players pid = none := by
  have hout : Server.RemovePlayer s pid =
      ({ rooms := insertA s.rooms player.roomID (room.RemovePlayer pid),
         players := eraseA s.players pid },
        (room.RemovePlayer pid).Broadcast ({ playerID := pid } : PlayerLeftData)) := by
    unfold Server.RemovePlayer
    rw [hp]
    simp only [hr]
    rw [if_pos hrid]
  rw [hout]
  refine ⟨lookupA_insertA_self _ _ _, ?_, ?_, rfl, ?_, lookupA_eraseA_self _ _⟩
  · exact eraseA_length_of_mem room.players pid hnd hmem
  · exact keysA_eraseA_not_mem room.players pid
  · intro q hq
    have hkeys : (((room.RemovePlayer pid).Broadcast
        ({ playerID := pid } : PlayerLeftData)).map Prod.fst) =
        keysA (room.RemovePlayer pid).players := by
      unfold Room.Broadcast
      simp [keysA]
    rw [hkeys]
    exact List.count_eq_one_of_mem (keysA_eraseA_nodup room.players pid hnd) hq

/-- A two-seat waiting room with two members. -/
def roomTwoW : Room :=
  { id := "r1", name := "w",
    players := [("p1", { id := "p1", username := "alice", roomID := "r1", isReady := false }),
                ("p2", { id := "p2", username := "bob", roomID := "r1", isReady := false })],
    engine := none, state := RoomState.waiting,
    roles := [RoleType.villager, RoleType.villager] }

def serverW : ServerState :=
  { rooms := [("r1", roomTwoW)],
    players := [("p1", { id := "p1", username := "alice", roomID := "r1", isReady := false }),
                ("p2", { id := "p2", username := "bob", roomID := "r1", isReady := false })] }

theorem C9_disconnect_cleanup_witness :
    (roomTwoW.RemovePlayer "p1").players.length + 1 = roomTwoW.players.length ∧
      lookupA (Server.RemovePlayer serverW "p1").1.players "p1" = none :=
  ⟨(C9_disconnect_cleanup serverW "p1"
      { id := "p1", username := "alice", roomID := "r1", isReady := false } roomTwoW
      rfl (by decide) rfl (by decide) (by decide)).2.1,
    (C9_disconnect_cleanup serverW "p1"
      { id := "p1", username := "alice", roomID := "r1", isReady := false } roomTwoW
      rfl (by decide) rfl (by decide) (by decide)).2.2.2.2.2⟩

theorem convertPlayersInfo_no_role (r : Room) (st : Engine) :
    ∀ info ∈ r.convertPlayersInfo st false, info.roleType = none := by
  intro info hinfo
  unfold Room.convertPlayersInfo at hinfo
  rw [List.mem_filterMap] at hinfo
  obtain ⟨e, _, hfe⟩ := hinfo
  cases hl : lookupA st.players e.1 with
  | none =>
    rw [hl] at hfe
    simp at hfe
  | some ps =>
    rw [hl] at hfe
    simp only [Option.map_some', Option.some.injEq] at hfe
    rw [← hfe]
    simp

theorem notify_map_fst (players : List (String × Player)) (st : Engine)
    (mk : String × Player → EnginePlayer → GameStartedData)
    (hall : ∀ e ∈ players, (lookupA st.players e.1).isSome) :
    (players.filterMap (fun e =>
        (lookupA st.players e.1).map (fun ps => (e.1, mk e ps)))).map Prod.fst =
      players.map Prod.fst := by
  induction players with
  | nil => rfl
  | cons e t ih =>
    have he : (lookupA st.players e.1).isSome := hall e (List.mem_cons_self e t)
    obtain ⟨ps, hps⟩ := Option.isSome_iff_exists.mp he
    simp only [List.filterMap_cons, hps, Option.map_some', List.map_cons]
    rw [ih (fun x hx => hall x (List.mem_cons_of_mem e hx))]

/-- C4: if every roster member is known to the engine state (as holds right
after Start registers the whole roster), notifyGameStarted produces exactly
one GAME_STARTED per roster member (exactly once each when the roster keys
are unique, the Go map invariant); the message for a member carries that
member's own engine role and camp at top level, and every entry of its
players list has its roleType omitted. -/
theorem C4_game_started_privacy (r : Room) (st : Engine)
    (hnd : (keysA r.players).Nodup)
    (hall : ∀ e ∈ r.players, (lookupA st.players e.1).isSome) :
    (r.notifyGameStarted st).map Prod.fst = keysA r.players ∧
    (∀ pid ∈ keysA r.players, ((r.notifyGameStarted st).map Prod.fst).count pid = 1) ∧
    (∀ pid d, (pid, d) ∈ r.notifyGameStarted st →
      (∃ ps, lookupA st.players pid = some ps ∧ d.roleType = ps.role ∧ d.camp = ps.camp) ∧
      ∀ info ∈ d.players, info.roleType = none) := by
  have hfst : (r.notifyGameStarted st).map Prod.fst = keysA r.players := by
    unfold Room.notifyGameStarted
    exact notify_map_fst r.players st
      (fun e ps => { roleType := ps.role, camp := ps.camp,
                     players := r.convertPlayersInfo st false }) hall
  refine ⟨hfst, ?_, ?_⟩
  · intro pid hpid
    rw [hfst]
    exact List.count_eq_one_of_mem hnd hpid
  · intro pid d hmem
    unfold Room.notifyGameStarted at hmem
    rw [List.mem_filterMap] at hmem
    obtain ⟨e, _, hfe⟩ := hmem
    cases hl : lookupA st.players e.1 with
    | none =>
      rw [hl] at hfe
      simp at hfe
    | some ps =>
      rw [hl] at hfe
      simp only [Option.map_some', Option.some.injEq, Prod.mk.injEq] at hfe
      obtain ⟨hpid, hd⟩ := hfe
      refine ⟨⟨ps, ?_, ?_, ?_⟩, ?_⟩
      · rw [← hpid]
        exact hl
      · rw [← hd]
      · rw [← hd]
      · rw [← hd]
        exact convertPlayersInfo_no_role r st

def engineTwo : Engine :=
  { players := [("p1", { role := RoleType.werewolf, camp := Camp.evil, alive := true }),
                ("p2", { role := RoleType.villager, camp := Camp.good, alive := true })] }

theorem C4_game_started_privacy_witness :
    (roomTwoW.notifyGameStarted engineTwo).map Prod.fst = keysA roomTwoW.players ∧
      ((roomTwoW.notifyGameStarted engineTwo).map Prod.fst).count "p1" = 1 :=
  ⟨(C4_game_started_privacy roomTwoW engineTwo (by decide) (by decide)).1,
    (C4_game_started_privacy roomTwoW engineTwo (by decide) (by decide)).2.1 "p1" (by decide)⟩

/-- C6: a frame whose 4-byte big-endian prefix declares more than 1 MiB is
rejected with the message-too-large error immediately after the prefix: the
returned unconsumed stream is everything after the 4 prefix bytes, so the
declared body is neither read nor materialized. -/
theorem C6_oversize_rejected (b0 b1 b2 b3 : Nat) (rest : List Nat)
    (h : ((b0 * 256 + b1) * 256 + b2) * 256 + b3 > 1048576) :
    Codec.Decode (b0 :: b1 :: b2 :: b3 :: rest) =
      (Except.error "message too large", rest) := by
  unfold Codec.Decode
  simp only [h, if_pos]

theorem C6_oversize_rejected_witness :
    Codec.Decode [0, 16, 0, 1, 99] = (Except.error "message too large", [99]) :=
  C6_oversize_rejected 0 16 0 1 [99] (by decide)

/-! ## Codec lemmas -/

theorem skipWs_cons_not {c : Nat} (l : List Nat) (h : isWsByte c = false) :
    skipWs (c :: l) = c :: l := by
  unfold skipWs
  rw [h]
  simp

theorem scanString_append (t r : List Nat) (ht : ∀ c ∈ t, c ≠ 34 ∧ c ≠ 92) :
    scanString (t ++ 34 :: r) = some (t, r) := by
  induction t with
  | nil => simp [scanString]
  | cons c t ih =>
    have hc := ht c (List.mem_cons_self c t)
    have h34 : (c == 34) = false := by simpa using hc.1
    have h92 : (c == 92) = false := by simpa using hc.2
    simp only [List.cons_append, scanString, h34, h92, Bool.false_eq_true, if_false,
      List.append_eq]
    rw [ih (fun x hx => ht x (List.mem_cons_of_mem c hx))]

theorem takeWhile_append_stop (p : Nat → Bool) (l1 l2 : List Nat)
    (h1 : ∀ c ∈ l1, p c = true) (h2 : ∀ c, l2.head? = some c → p c = false) :
    (l1 ++ l2).takeWhile p = l1 ∧ (l1 ++ l2).dropWhile p = l2 := by
  induction l1 with
  | nil =>
    cases l2 with
    | nil => simp
    | cons c t =>
      have := h2 c rfl
      simp [List.takeWhile, List.dropWhile, this]
  | cons c t ih =>
    have hc := h1 c (List.mem_cons_self c t)
    have ihr := ih (fun x hx => h1 x (List.mem_cons_of_mem c hx))
    simp only [List.cons_append, List.takeWhile_cons, List.dropWhile_cons, hc, if_true]
    exact ⟨by rw [ihr.1], by simpa using ihr.2⟩

theorem natDigitsAux_digits (fuel n : Nat) :
    ∀ d ∈ natDigitsAux fuel n, isDigitByte d = true := by
  induction fuel generalizing n with
  | zero => simp [natDigitsAux]
  | succ fuel ih =>
    cases n with
    | zero => simp [natDigitsAux]
    | succ k =>
      intro d hd
      simp only [natDigitsAux, List.mem_cons] at hd
      rcases hd with h | h
      · have : (k + 1) % 10 < 10 := Nat.mod_lt _ (by omega)
        subst h
        simp only [isDigitByte, Bool.and_eq_true, decide_eq_true_eq]
        omega
      · exact ih ((k + 1) / 10) d h

theorem natDigitsAux_val (fuel n : Nat) (h : n ≤ fuel) :
    (natDigitsAux fuel n).foldr (fun c a => a * 10 + (c - 48)) 0 = n := by
  induction fuel generalizing n with
  | zero =>
    have : n = 0 := by omega
    subst this
    simp [natDigitsAux]
  | succ fuel ih =>
    cases n with
    | zero => simp [natDigitsAux]
    | succ k =>
      simp only [natDigitsAux, List.foldr_cons]
      have hdiv : (k + 1) / 10 ≤ fuel := by
        have := Nat.div_lt_self (Nat.succ_pos k) (by omega : 1 < 10)
        omega
      rw [ih ((k + 1) / 10) hdiv]
      have hmod : (k + 1) % 10 + 48 - 48 = (k + 1) % 10 := by omega
      rw [hmod]
      have := Nat.div_add_mod (k + 1) 10
      omega

theorem natDigits_all_digits (n : Nat) : ∀ c ∈ natDigits n, isDigitByte c = true := by
  intro c hc
  unfold natDigits at hc
  split at hc
  · simp at hc
    subst hc
    rfl
  · rw [List.mem_reverse] at hc
    exact natDigitsAux_digits n n c hc

theorem natDigits_ne_nil (n : Nat) : (natDigits n).isEmpty = false := by
  unfold natDigits
  split
  · rfl
  · rename_i h
    cases n with
    | zero => exact absurd rfl h
    | succ k =>
      simp only [natDigitsAux]
      simp [List.isEmpty_eq_false_iff_exists_mem]

theorem natDigits_foldl (n : Nat) :
    (natDigits n).foldl (fun a c => a * 10 + (c - 48)) 0 = n := by
  unfold natDigits
  split
  · rename_i h
    subst h
    rfl
  · rw [List.foldl_reverse]
    exact natDigitsAux_val n n (Nat.le_refl n)

theorem parseNat_natDigits (n : Nat) (r : List Nat)
    (hr : ∀ c, r.head? = some c → isDigitByte c = false) :
    parseNat (natDigits n ++ r) = some (n, r) := by
  obtain ⟨htake, hdrop⟩ :=
    takeWhile_append_stop isDigitByte (natDigits n) r (natDigits_all_digits n) hr
  unfold parseNat
  rw [htake, hdrop]
  show (if (natDigits n).isEmpty = true then none
      else some ((natDigits n).foldl (fun a c => a * 10 + (c - 48)) 0, r)) = some (n, r)
  rw [natDigits_ne_nil]
  simp only [Bool.false_eq_true, if_false, natDigits_foldl]

theorem skipWs_c34 (l : List Nat) : skipWs (34 :: l) = 34 :: l := rfl
theorem skipWs_c44 (l : List Nat) : skipWs (44 :: l) = 44 :: l := rfl
theorem skipWs_c58 (l : List Nat) : skipWs (58 :: l) = 58 :: l := rfl
theorem skipWs_c125 (l : List Nat) : skipWs (125 :: l) = 125 :: l := rfl

theorem parseMembersMsg_step_type (fuel : Nat) (t rest : List Nat) (acc : Message)
    (ht : StrOk t) :
    parseMembersMsg (fuel + 1)
        (34 :: (keyTypeBytes ++ (34 :: 58 :: 34 :: (t ++ (34 :: 44 :: rest))))) acc =
      parseMembersMsg fuel rest { acc with type := t } := by
  have hkey : parseStringLit
      (34 :: (keyTypeBytes ++ (34 :: 58 :: 34 :: (t ++ (34 :: 44 :: rest)))))
      = some (keyTypeBytes, 58 :: 34 :: (t ++ (34 :: 44 :: rest))) := by
    show scanString (keyTypeBytes ++ (34 :: (58 :: 34 :: (t ++ (34 :: 44 :: rest))))) = _
    exact scanString_append keyTypeBytes _ (by decide)
  have hval : parseStringLit (34 :: (t ++ (34 :: 44 :: rest))) = some (t, 44 :: rest) := by
    show scanString (t ++ (34 :: (44 :: rest))) = _
    exact scanString_append t _ ht
  simp only [parseMembersMsg, skipWs_c34, skipWs_c58, skipWs_c44, hkey, hval,
    eq_self_iff_true, if_true]

theorem digit_not_ws {c : Nat} (h : isDigitByte c = true) : isWsByte c = false := by
  simp only [isDigitByte, Bool.and_eq_true, decide_eq_true_eq] at h
  simp only [isWsByte, Bool.or_eq_false_iff, beq_eq_false_iff_ne, ne_eq]
  omega

theorem skipWs_no_ws_head (l : List Nat) (hne : l ≠ [])
    (hh : ∀ c, l.head? = some c → isWsByte c = false) : skipWs l = l := by
  cases l with
  | nil => rfl
  | cons c t => exact skipWs_cons_not t (hh c rfl)

theorem parseMembersMsg_step_data (fuel : Nat) (d rest : List Nat) (acc : Message)
    (hd : DataOk d) :
    parseMembersMsg (fuel + 1)
        (34 :: (keyDataBytes ++ (34 :: 58 :: (d ++ (44 :: rest))))) acc =
      parseMembersMsg fuel rest { acc with data := d } := by
  have hkey : parseStringLit (34 :: (keyDataBytes ++ (34 :: 58 :: (d ++ (44 :: rest)))))
      = some (keyDataBytes, 58 :: (d ++ (44 :: rest))) := by
    show scanString (keyDataBytes ++ (34 :: (58 :: (d ++ (44 :: rest))))) = _
    exact scanString_append keyDataBytes _ (by decide)
  have hne1 : keyDataBytes ≠ keyTypeBytes := by decide
  have hne2 : keyDataBytes ≠ keyTimestampBytes := by decide
  have hsw : skipWs (d ++ (44 :: rest)) = d ++ (44 :: rest) := by
    apply skipWs_no_ws_head
    · intro hnil
      exact hd.1 (by cases d with | nil => rfl | cons c t => simp at hnil)
    · intro c hc
      apply hd.2.1
      cases d with
      | nil => exact absurd rfl hd.1
      | cons c2 t =>
        simp only [List.cons_append, List.head?_cons, Option.some.injEq] at hc ⊢
        exact hc
  have hpr : parseRaw ((d ++ (44 :: rest)).length + 1) RawMode.value (d ++ (44 :: rest)) =
      some (d, 44 :: rest) :=
    hd.2.2 ((d ++ (44 :: rest)).length + 1) (44 :: rest)
      (by simp only [List.length_append]; omega)
  simp only [parseMembersMsg, skipWs_c34, skipWs_c58, skipWs_c44, hkey, hsw, hpr,
    hne1, hne2, eq_self_iff_true, if_true, if_false]

theorem parseMembersMsg_step_ts (fuel n : Nat) (acc : Message) :
    parseMembersMsg (fuel + 1)
        (34 :: (keyTimestampBytes ++ (34 :: 58 :: (natDigits n ++ [125])))) acc =
      some ({ acc with timestamp := n }, []) := by
  have hkey : parseStringLit (34 :: (keyTimestampBytes ++ (34 :: 58 :: (natDigits n ++ [125]))))
      = some (keyTimestampBytes, 58 :: (natDigits n ++ [125])) := by
    show scanString (keyTimestampBytes ++ (34 :: (58 :: (natDigits n ++ [125])))) = _
    exact scanString_append keyTimestampBytes _ (by decide)
  have hne1 : keyTimestampBytes ≠ keyTypeBytes := by decide
  have hsw : skipWs (natDigits n ++ [125]) = natDigits n ++ [125] := by
    apply skipWs_no_ws_head
    · simp
    · intro c hc
      cases hnd : natDigits n with
      | nil =>
        have hni := natDigits_ne_nil n
        rw [hnd] at hni
        simp at hni
      | cons c2 t =>
        rw [hnd] at hc
        simp only [List.cons_append, List.head?_cons, Option.some.injEq] at hc
        subst hc
        exact digit_not_ws (natDigits_all_digits n c2 (by rw [hnd]; exact List.mem_cons_self c2 t))
  have hpn : parseNat (natDigits n ++ [125]) = some (n, [125]) :=
    parseNat_natDigits n [125] (by
      intro c hc
      simp at hc
      exact hc ▸ rfl)
  simp only [parseMembersMsg, skipWs_c34, skipWs_c58, skipWs_c125, hkey, hsw, hpn,
    hne1, eq_self_iff_true, if_true, if_false]

theorem parseMembersMsg_marshal (m : Message) (ht : StrOk m.type) (hd : DataOk m.data)
    (fuel : Nat) :
    parseMembersMsg (fuel + 3)
        (34 :: (keyTypeBytes ++ (34 :: 58 :: 34 :: (m.type ++ (34 :: 44 ::
          (34 :: (keyDataBytes ++ (34 :: 58 :: (m.data ++ (44 ::
            (34 :: (keyTimestampBytes ++
              (34 :: 58 :: (natDigits m.timestamp ++ [125]))))))))))))))
        { type := [], data := [], timestamp := 0 } = some (m, []) := by
  have h1 := parseMembersMsg_step_type (fuel + 2) m.type
      (34 :: (keyDataBytes ++ (34 :: 58 :: (m.data ++ (44 ::
        (34 :: (keyTimestampBytes ++ (34 :: 58 :: (natDigits m.timestamp ++ [125])))))))))
      { type := [], data := [], timestamp := 0 } ht
  have h2 := parseMembersMsg_step_data (fuel + 1) m.data
      (34 :: (keyTimestampBytes ++ (34 :: 58 :: (natDigits m.timestamp ++ [125]))))
      { type := m.type, data := [], timestamp := 0 } hd
  have h3 := parseMembersMsg_step_ts fuel m.timestamp
      { type := m.type, data := m.data, timestamp := 0 }
  exact h1.trans (h2.trans h3)

theorem marshal_cons (m : Message) :
    marshalMessage m = 123 :: (34 :: (keyTypeBytes ++ (34 :: 58 :: 34 :: (m.type ++ (34 :: 44 ::
      (34 :: (keyDataBytes ++ (34 :: 58 :: (m.data ++ (44 ::
        (34 :: (keyTimestampBytes ++
          (34 :: 58 :: (natDigits m.timestamp ++ [125])))))))))))))) := rfl


theorem unmarshalMessage_marshalMessage (m : Message) (ht : StrOk m.type) (hd : DataOk m.data) :
    unmarshalMessage (marshalMessage m) = some m := by
  have hlen : 2 ≤ (marshalMessage m).length := by
    simp [marshalMessage]
  obtain ⟨k, hk⟩ : ∃ k, (marshalMessage m).length + 1 = k + 3 :=
    ⟨(marshalMessage m).length - 2, by omega⟩
  have h0 : unmarshalMessage (marshalMessage m) =
      (match parseMembersMsg ((marshalMessage m).length + 1)
          (34 :: (keyTypeBytes ++ (34 :: 58 :: 34 :: (m.type ++ (34 :: 44 ::
            (34 :: (keyDataBytes ++ (34 :: 58 :: (m.data ++ (44 ::
              (34 :: (keyTimestampBytes ++
                (34 :: 58 :: (natDigits m.timestamp ++ [125]))))))))))))))
          { type := [], data := [], timestamp := 0 } with
        | some (m2, r2) => if (skipWs r2).isEmpty then some m2 else none
        | none => none) := rfl
  rw [h0, hk, parseMembersMsg_marshal m ht hd k]
  rfl

theorem beVal_writeU32 (n : Nat) (h : n ≤ 1048576) :
    ((n / 16777216 % 256 * 256 + n / 65536 % 256) * 256 + n / 256 % 256) * 256 + n % 256 = n := by
  omega

/-- C7 amended, round-trip on canonical frames: decoding a frame produced by
Encode returns exactly the encoded message with nothing left over, so
re-encoding the decode result reproduces the original bytes; this is the
direction that holds, while byte-identity fails for merely well-formed
frames (see the counterexample). -/
theorem C7_roundtrip_canonical (m : Message) (ht : StrOk m.type) (hd : DataOk m.data)
    (hlen : (marshalMessage m).length ≤ 1048576) :
    Codec.Decode (Codec.Encode m) = (Except.ok m, []) ∧
    (∀ m2 rest2, Codec.Decode (Codec.Encode m) = (Except.ok m2, rest2) →
      Codec.Encode m2 = Codec.Encode m) := by
  have hmod : (marshalMessage m).length % 4294967296 = (marshalMessage m).length :=
    Nat.mod_eq_of_lt (by omega)
  have h0 : Codec.Decode (Codec.Encode m) =
      (let length := (((marshalMessage m).length % 4294967296 / 16777216 % 256 * 256 +
          (marshalMessage m).length % 4294967296 / 65536 % 256) * 256 +
          (marshalMessage m).length % 4294967296 / 256 % 256) * 256 +
          (marshalMessage m).length % 4294967296 % 256
        if length > 1048576 then (Except.error "message too large", marshalMessage m)
        else if (marshalMessage m).length < length then (Except.error "read message body", [])
        else
          match unmarshalMessage ((marshalMessage m).take length) with
          | some m2 => (Except.ok m2, (marshalMessage m).drop length)
          | none => (Except.error "decode message", (marshalMessage m).drop length)) := rfl
  have hfst : Codec.Decode (Codec.Encode m) = (Except.ok m, []) := by
    rw [h0]
    simp only [hmod, beVal_writeU32 (marshalMessage m).length hlen]
    rw [if_neg (by omega), if_neg (by omega), List.take_length, List.drop_length,
      unmarshalMessage_marshalMessage m ht hd]
  refine ⟨hfst, ?_⟩
  intro m2 rest2 heq
  rw [hfst] at heq
  have : m = m2 := by
    have := congrArg Prod.fst heq
    simpa using this
  rw [← this]

theorem dataOk_emptyObj : DataOk [123, 125] := by
  refine ⟨by decide, ?_, ?_⟩
  · intro c hc
    simp at hc
    exact hc ▸ rfl
  · intro fuel suffix h
    cases fuel with
    | zero => omega
    | succ k =>
      show parseRaw (k + 1) RawMode.value (123 :: (125 :: suffix)) = some ([123, 125], suffix)
      simp [parseRaw, splitWs, isWsByte]

/-- The non-canonical but well-formed frame: its body carries one stray space
before the closing brace. -/
def cexBody : List Nat :=
  [123, 34, 116, 121, 112, 101, 34, 58, 34, 65, 34, 44, 34, 100, 97, 116, 97, 34, 58,
    123, 125, 44, 34, 116, 105, 109, 101, 115, 116, 97, 109, 112, 34, 58, 53, 32, 125]

def cexFrame : List Nat := [0, 0, 0, 37] ++ cexBody

def cexMsg : Message := { type := [65], data := [123, 125], timestamp := 5 }

/-- C7 counterexample: a well-formed frame of 37 body bytes (under 1 MiB)
that Decode accepts, whose re-encoding is not byte-identical to the original
frame: the stray whitespace is lost to canonical re-serialization. -/
theorem C7_roundtrip_cex :
    Codec.Decode cexFrame = (Except.ok cexMsg, []) ∧ Codec.Encode cexMsg ≠ cexFrame := by
  exact ⟨rfl, by decide⟩

theorem C7_roundtrip_canonical_witness :
    Codec.Decode (Codec.Encode cexMsg) = (Except.ok cexMsg, []) :=
  (C7_roundtrip_canonical cexMsg (by unfold StrOk; decide) dataOk_emptyObj (by decide)).1
